import Mathlib

/-!
Verification of the alerting / collection / export core of
`src/monitor/network_monitor.py` (class `NetworkMonitor`).

The Python code is shallowly embedded: every operation the claims touch is
translated into an executable Lean definition.  Machine floats of the source
carry measured latencies and timestamps; the embedding uses `ℚ` for those
values (all comparisons in the source are plain ordered comparisons).
Python dictionaries are embedded as insertion-ordered association lists with
the exact `get` / item-assignment / `{**a, **b}` semantics.  External probes
(`ping3.ping`, DNS resolution, `psutil`) and delivery channels are
collaborator boundaries: they enter the embedding as function parameters
(`ping`, `dns`, `deliver`), exactly as wide as the information the source
reads from them (an `Option` latency for a probe that may fail, a success
bit for a delivery attempt).
-/

namespace NetMon

/-- Python `needle in hay` substring test, on character lists
(`needle.isPrefixOf` at each suffix; the empty needle is contained in
everything, as in Python). -/
def containsSub : List Char → List Char → Bool
  | [], needle => needle.isEmpty
  | c :: t, needle => needle.isPrefixOf (c :: t) || containsSub t needle

/-- Python `sub in s` for strings. -/
def pyIn (sub s : String) : Bool :=
  containsSub s.data sub.data

/-- Python `s.startswith(p)`. -/
def pyStartsWith (s p : String) : Bool :=
  p.data.isPrefixOf s.data

/-- Python `d.get(key)` on an insertion-ordered dictionary embedded as an
association list (keys are unique in every list built by `dictSet`). -/
def dictGet? {α : Type} : List (String × α) → String → Option α
  | [], _ => none
  | (k, v) :: rest, key => if k = key then some v else dictGet? rest key

/-- Python `d.get(key, dflt)`. -/
def dictGetD {α : Type} (d : List (String × α)) (key : String) (dflt : α) : α :=
  (dictGet? d key).getD dflt

/-- Python `d[key] = v`: replace the first binding of `key` in place
(Python dictionaries keep the original insertion position on update),
append a new binding otherwise. -/
def dictSet {α : Type} : List (String × α) → String → α → List (String × α)
  | [], key, v => [(key, v)]
  | (k, w) :: rest, key, v =>
      if k = key then (key, v) :: rest else (k, w) :: dictSet rest key v

/-- Fold every binding of `e` into `d`, as Python `{**d, **e}` does. -/
def dictUpdate {α : Type} (d e : List (String × α)) : List (String × α) :=
  e.foldl (fun acc p => dictSet acc p.1 p.2) d

/-- Python `d.keys()` in insertion order. -/
def dictKeys {α : Type} (d : List (String × α)) : List String :=
  d.map Prod.fst

/-- The `MetricData` dataclass of the source.  `dimensions=None` and an
empty dictionary behave identically everywhere the source tests the field
(`if metric.dimensions:`), so both are embedded as `[]`. -/
structure MetricData where
  name : String
  value : ℚ
  unit : String
  timestamp : ℚ
  dimensions : List (String × String) := []
deriving DecidableEq

/-- The per-channel `enabled` flags of `config['alerts']['channels']`. -/
structure Channels where
  email : Bool
  sms : Bool
  slack : Bool
  webhook : Bool
deriving DecidableEq

/-- The `config['alerts']` section. -/
structure AlertsConfig where
  enabled : Bool
  cooldown_minutes : ℚ
  channels : Channels
deriving DecidableEq

/-- The slice of the pre-validated configuration object the verified core
reads: the three target groups, the latency thresholds and the alert
settings. -/
structure Config where
  targets_internal : List (String × String)
  targets_internet : List (String × String)
  targets_work_proxy : List (String × String)
  thresholds_latency : List (String × ℚ)
  alerts : AlertsConfig
deriving DecidableEq

/-- The merge `{**internal, **internet, **work_proxy}` of
`collect_network_metrics`: one dictionary keyed by target name, later
groups overriding earlier ones. -/
def allTargets (cfg : Config) : List (String × String) :=
  dictUpdate (dictUpdate (dictUpdate [] cfg.targets_internal) cfg.targets_internet)
    cfg.targets_work_proxy

/-- The body of the per-target loop of `collect_network_metrics`: a
successful probe (`ping_target` returned a latency) appends the latency
sample and an availability sample of value `1.0`; a failed probe (the
source's `None`, every exception being caught inside `ping_target`)
appends only an availability sample of value `0.0`. -/
def targetSamples (ping : String → Option ℚ) (ts : ℚ) (t : String × String) :
    List MetricData :=
  match ping t.2 with
  | some latency =>
      [ { name := "network_latency_" ++ t.1, value := latency,
          unit := "Milliseconds", timestamp := ts,
          dimensions := [("target", t.2), ("target_name", t.1)] },
        { name := "network_availability_" ++ t.1, value := 1,
          unit := "Count", timestamp := ts,
          dimensions := [("target", t.2), ("target_name", t.1)] } ]
  | none =>
      [ { name := "network_availability_" ++ t.1, value := 0,
          unit := "Count", timestamp := ts,
          dimensions := [("target", t.2), ("target_name", t.1)] } ]

/-- The hard-coded DNS test domains of `collect_network_metrics`. -/
def testDomains : List String :=
  ["google.com", "cloudflare.com", "amazon.com"]

/-- The DNS loop of `collect_network_metrics`: one `dns_lookup_time`
sample per domain whose lookup succeeded, failures omitted. -/
def dnsSamples (dns : String → Option ℚ) (ts : ℚ) : List MetricData :=
  testDomains.filterMap fun d =>
    (dns d).map fun v =>
      { name := "dns_lookup_time", value := v, unit := "Milliseconds",
        timestamp := ts, dimensions := [("domain", d)] }

/-- The system-metric loop of `collect_network_metrics` over the
dictionary returned by `get_system_metrics` (empty on failure). -/
def sysSamples (sysM : List (String × ℚ)) (ts : ℚ) : List MetricData :=
  sysM.map fun p =>
    { name := "system_" ++ p.1, value := p.2,
      unit := if pyIn "percent" p.1 then "Percent" else "Count",
      timestamp := ts, dimensions := [] }

/-- Embedding of `NetworkMonitor.collect_network_metrics`, with the probes passed in as
collaborator functions: `ping` maps a target address to an optional
latency (ms), `dns` a domain to an optional lookup time, `sysM` is the
system-metric dictionary, `ts` the single timestamp taken at the top of
the call.  The function is total: every probe failure is already absorbed
into the `Option` results, as the source absorbs exceptions inside
`ping_target` / `dns_lookup_time` / `get_system_metrics`. -/
def collect_network_metrics (cfg : Config) (ping dns : String → Option ℚ)
    (sysM : List (String × ℚ)) (ts : ℚ) : List MetricData :=
  (allTargets cfg).flatMap (targetSamples ping ts) ++ dnsSamples dns ts ++
    sysSamples sysM ts

/-- One CloudWatch data point as built inside `send_to_cloudwatch`
(`Dimensions` omitted for a sample without dimensions, embedded as `[]`). -/
structure DataPoint where
  metricName : String
  value : ℚ
  unit : String
  timestamp : ℚ
  dims : List (String × String)
deriving DecidableEq

/-- The per-sample translation inside `send_to_cloudwatch`. -/
def toDataPoint (m : MetricData) : DataPoint :=
  ⟨m.name, m.value, m.unit, m.timestamp, m.dimensions⟩

/-- Rational multiplication, definitionally a normalised fraction (equal
to `*` on `ℚ`, see `ratMul_eq`; spelled through `mkRat` so that concrete
instances evaluate inside the kernel). -/
def ratMul (a b : ℚ) : ℚ :=
  mkRat (a.num * b.num) (a.den * b.den)

/-- Rational subtraction through `mkRat` (equal to `-` on `ℚ`, see
`ratSub_eq`). -/
def ratSub (a b : ℚ) : ℚ :=
  mkRat (a.num * b.den - b.num * a.den) (a.den * b.den)

/-- Rational addition through `mkRat` (equal to `+` on `ℚ`, see
`ratAdd_eq`). -/
def ratAdd (a b : ℚ) : ℚ :=
  mkRat (a.num * b.den + b.num * a.den) (a.den * b.den)

/-- Fuel-driven worker for `chunks20` (the fuel is an upper bound on the
list length, so the `0, _ :: _` arm is never reached from `chunks20`). -/
def chunks20Go {α : Type} : Nat → List α → List (List α)
  | _, [] => []
  | 0, _ :: _ => []
  | fuel + 1, x :: xs => ((x :: xs).take 20) :: chunks20Go fuel ((x :: xs).drop 20)

/-- The slices `metrics[i:i+20]` for `i in range(0, len(metrics), 20)`: the batch cut
into consecutive chunks of at most 20, in order. -/
def chunks20 {α : Type} (l : List α) : List (List α) :=
  chunks20Go l.length l

/-- Embedding of `NetworkMonitor.send_to_cloudwatch`: returns the source's boolean
result together with the sequence of `put_metric_data` calls it performs,
one per chunk.  The sink itself is a collaborator boundary: the embedding
records the call payloads. -/
def send_to_cloudwatch (awsEnabled : Bool) (metrics : List MetricData) :
    Bool × List (List DataPoint) :=
  if awsEnabled = false then (false, [])
  else (true, (chunks20 metrics).map fun c => c.map toDataPoint)

/-- The `self.last_alert_times` dictionary: metric key → time of the last alert sent. -/
abbrev AlertState : Type :=
  List (String × ℚ)

/-- One delivery attempt performed by `_send_alert`: the channel, the
message and severity handed to it, and the collaborator's delivery
outcome (every channel send catches its own failures in the source, so
the outcome never influences control flow). -/
structure Notification where
  channel : String
  message : String
  severity : String
  metricKey : String
  delivered : Bool
deriving DecidableEq

/-- The channel fan-out of `_send_alert`: one attempt per enabled channel,
in the source's order email, sms, slack, webhook. -/
def channelAttempts (ch : Channels) (deliver : String → Bool)
    (message severity metricKey : String) : List Notification :=
  (if ch.email then [⟨ "email", message, severity, metricKey, deliver "email"⟩] else []) ++
  (if ch.sms then [⟨ "sms", message, severity, metricKey, deliver "sms"⟩] else []) ++
  (if ch.slack then [⟨ "slack", message, severity, metricKey, deliver "slack"⟩] else []) ++
  (if ch.webhook then [⟨ "webhook", message, severity, metricKey, deliver "webhook"⟩] else [])

/-- Result of one `_send_alert` call: whether the cooldown gate was passed
(the source reaches the `self.last_alert_times[metric_key] = current_time`
line), the delivery attempts made, the boolean the source returns
(`alert_sent`, true when at least one channel is enabled), and the new
suppression state. -/
structure SendResult where
  gatePassed : Bool
  notifs : List Notification
  alertSent : Bool
  state : AlertState
deriving DecidableEq

/-- Embedding of `NetworkMonitor._send_alert`.  The gate: a prior alert time for the
key that is strictly inside the cooldown window suppresses the alert and
leaves every piece of state untouched.  Otherwise the suppression
timestamp is set to `currentTime` first, and only then the enabled
channels are invoked (each channel catches its own failures, so
`deliver`'s outcomes influence nothing). -/
def _send_alert (ch : Channels) (deliver : String → Bool)
    (message severity metricKey : String) (currentTime cooldownSeconds : ℚ)
    (st : AlertState) : SendResult :=
  match dictGet? st metricKey with
  | some last =>
      if ratSub currentTime last < cooldownSeconds then
        { gatePassed := false, notifs := [], alertSent := false, state := st }
      else
        { gatePassed := true,
          notifs := channelAttempts ch deliver message severity metricKey,
          alertSent := ch.email || ch.sms || ch.slack || ch.webhook,
          state := dictSet st metricKey currentTime }
  | none =>
      { gatePassed := true,
        notifs := channelAttempts ch deliver message severity metricKey,
        alertSent := ch.email || ch.sms || ch.slack || ch.webhook,
        state := dictSet st metricKey currentTime }

/-- Embedding of `NetworkMonitor._get_target_type`: the source classifies by Python
substring containment of a group key in the full metric name, internal
group first, then work-proxy, else internet. -/
def _get_target_type (cfg : Config) (metricName : String) : String :=
  if (dictKeys cfg.targets_internal).any (fun t => pyIn t metricName) then "lan"
  else if (dictKeys cfg.targets_work_proxy).any (fun t => pyIn t metricName) then "work"
  else "internet"

/-- Fuel-driven decimal digits of a natural number (kernel-reducible). -/
def natDigits : Nat → Nat → List Char
  | 0, _ => []
  | fuel + 1, n =>
      if n < 10 then [Nat.digitChar n]
      else natDigits fuel (n / 10) ++ [Nat.digitChar (n % 10)]

/-- Decimal rendering of a natural number. -/
def showNat (n : Nat) : String :=
  ⟨natDigits (n + 1) n⟩

/-- Decimal rendering of an integer. -/
def showInt (i : Int) : String :=
  if i < 0 then "-" ++ showNat i.natAbs else showNat i.natAbs

/-- Rendering of a sample value (integral rationals print like integers;
the claims under proof never inspect this text). -/
def showValue (q : ℚ) : String :=
  if q.den = 1 then showInt q.num else showInt q.num ++ "/" ++ showNat q.den

/-- Floor of a rational as an integer (the denominator is positive). -/
def ratFloor (q : ℚ) : Int :=
  Int.fdiv q.num (q.den : Int)

/-- Python's `f"{x:.1f}"` on the nonnegative latencies that reach it: the
value to one decimal place. -/
def fmt1 (q : ℚ) : String :=
  let n : Int := ratFloor (ratAdd (ratMul 10 q) (mkRat 1 2))
  showInt (Int.fdiv n 10) ++ "." ++ showNat (Int.emod n 10).natAbs

/-- The classification cascade of `check_alerts`, per sample: the latency
branch with its per-class thresholds (defaults 1000 / 500), then the
availability-zero branch, else nothing.  Returns the severity and message
handed to `_send_alert`. -/
def classifyMetric (cfg : Config) (m : MetricData) : Option (String × String) :=
  if pyStartsWith m.name "network_latency_" then
    let targetType := _get_target_type cfg m.name
    let critical := dictGetD cfg.thresholds_latency (targetType ++ "_critical") 1000
    let warning := dictGetD cfg.thresholds_latency (targetType ++ "_warning") 500
    if m.value > critical then
      some ("critical", "CRITICAL: High latency to " ++ m.name ++ ": " ++ fmt1 m.value ++ "ms")
    else if m.value > warning then
      some ("warning", "WARNING: Elevated latency to " ++ m.name ++ ": " ++ fmt1 m.value ++ "ms")
    else none
  else if pyStartsWith m.name "network_availability_" then
    if m.value = 0 then
      some ("critical", "CRITICAL: Target unreachable: " ++ m.name)
    else none
  else none

/-- One iteration of the `for metric in metrics` loop of `check_alerts`:
classify, and on a classified event call `_send_alert` with the sample
name as suppression key. -/
def checkAlertsStep (cfg : Config) (deliver : String → Bool)
    (currentTime cooldownSeconds : ℚ) (st : AlertState) (m : MetricData) :
    List Notification × AlertState :=
  match classifyMetric cfg m with
  | none => ([], st)
  | some (sev, msg) =>
      let r := _send_alert cfg.alerts.channels deliver msg sev m.name
        currentTime cooldownSeconds st
      (r.notifs, r.state)

/-- Embedding of `NetworkMonitor.check_alerts`: an early return when alerting is
disabled, otherwise the per-sample loop threading the suppression state
and collecting every delivery attempt. -/
def check_alerts (cfg : Config) (deliver : String → Bool)
    (metrics : List MetricData) (currentTime : ℚ) (st : AlertState) :
    List Notification × AlertState :=
  if cfg.alerts.enabled = false then ([], st)
  else
    let cooldownSeconds := ratMul cfg.alerts.cooldown_minutes 60
    metrics.foldl
      (fun acc m =>
        let s := checkAlertsStep cfg deliver currentTime cooldownSeconds acc.2 m
        (acc.1 ++ s.1, s.2))
      ([], st)

/-- Repeated `_send_alert` calls for one metric key at a sequence of
evaluation times, threading the suppression state (the shape in which
`check_alerts` drives `_send_alert` across monitoring cycles). -/
def runAlerts (ch : Channels) (deliver : String → Bool)
    (message severity metricKey : String) (cooldownSeconds : ℚ) :
    List ℚ → AlertState → List SendResult × AlertState
  | [], st => ([], st)
  | t :: ts, st =>
      let r := _send_alert ch deliver message severity metricKey t cooldownSeconds st
      let s := runAlerts ch deliver message severity metricKey cooldownSeconds ts r.state
      (r :: s.1, s.2)

/-- Python `metric.name.replace('-', '_')` (a single-character replacement). -/
def pyReplaceDash (s : String) : String :=
  ⟨s.data.map fun c => if c = '-' then '_' else c⟩

/-- Python `.lower()` on the ASCII names the monitor produces. -/
def pyLower (s : String) : String :=
  ⟨s.data.map Char.toLower⟩

/-- The name normalisation of `export_prometheus_metrics`. -/
def promName (s : String) : String :=
  pyLower (pyReplaceDash s)

/-- The label block of `export_prometheus_metrics`: empty for a sample
without dimensions, else the comma-joined `key="value"` pairs in
insertion order, in braces. -/
def labelBlock (dims : List (String × String)) : String :=
  if dims.isEmpty then ""
  else "\x7b" ++ String.intercalate "," (dims.map fun p => p.1 ++ "=\"" ++ p.2 ++ "\"") ++ "\x7d"

/-- Python `int(x)`: truncation toward zero. -/
def pyInt (q : ℚ) : Int :=
  let m : Nat := q.num.natAbs / q.den
  if 0 ≤ q.num then (m : Int) else -(m : Int)

/-- One line of `export_prometheus_metrics`:
name, label block, space, value, space, timestamp in integer ms. -/
def renderLine (m : MetricData) : String :=
  promName m.name ++ labelBlock m.dimensions ++ " " ++ showValue m.value ++ " " ++
    showInt (pyInt (ratMul m.timestamp 1000))

/-- Embedding of `NetworkMonitor.export_prometheus_metrics`: the per-sample lines
joined by newline. -/
def export_prometheus_metrics (metrics : List MetricData) : String :=
  String.intercalate "\n" (metrics.map renderLine)

/-- The render line as claim C6 of the specification words it: every
non-alphanumeric character of the metric name folded to underscore,
alphanumerics lower-cased.  Written from the spec sentence, to be
compared against `renderLine` (which, from the source, folds only
hyphens). -/
def renderLineSpecFold (m : MetricData) : String :=
  String.mk (m.name.data.map fun c => if c.isAlphanum then c.toLower else '_') ++
    labelBlock m.dimensions ++ " " ++ showValue m.value ++ " " ++
    showInt (pyInt (ratMul m.timestamp 1000))

/-- The render line as the amended claim words it: every hyphen of the
metric name folded to underscore and the name lower-cased, then the
label block when labels are non-empty, a space, the value, a space, the
timestamp in integer milliseconds. -/
def renderLineAmended (m : MetricData) : String :=
  String.mk (m.name.data.map fun c => if c = '-' then '_' else c.toLower) ++
    labelBlock m.dimensions ++ " " ++ showValue m.value ++ " " ++
    showInt (pyInt (ratMul m.timestamp 1000))

/-- Concrete configuration used by witnesses: alerting on, five-minute
cooldown, email channel enabled, lan thresholds 100 / 50 ms. -/
def cfgW : Config :=
  { targets_internal := [("router", "192.168.1.1")],
    targets_internet := [("cloudflare", "1.1.1.1")],
    targets_work_proxy := [("work_vpn", "10.0.0.1")],
    thresholds_latency := [("lan_critical", 100), ("lan_warning", 50)],
    alerts := { enabled := true, cooldown_minutes := 5,
                channels := ⟨ true, false, false, false⟩ } }

/-- Configuration `cfgW` with alerting disabled. -/
def cfgDisabled : Config :=
  { cfgW with alerts := { enabled := false, cooldown_minutes := 5,
                          channels := ⟨ true, false, false, false⟩ } }

/-- Configuration exhibiting the substring pitfall of
`_get_target_type`: the internal key `gate` is a substring of the
work-proxy key `gateway`. -/
def cfgSub : Config :=
  { targets_internal := [("gate", "10.0.0.1")],
    targets_internet := [],
    targets_work_proxy := [("gateway", "proxy.internal")],
    thresholds_latency := [],
    alerts := { enabled := true, cooldown_minutes := 5,
                channels := ⟨ false, false, false, false⟩ } }

/-- A sample whose name contains a dot, which `replace('-', '_')` leaves
as it is. -/
def mDotted : MetricData :=
  ⟨ "foo.bar", 1, "Count", 0, []⟩

/-- A concrete batch of 45 samples. -/
def metrics45 : List MetricData :=
  (List.range 45).map fun i =>
    { name := "m", value := (i : ℚ), unit := "Count", timestamp := 0,
      dimensions := [] }

theorem ratMul_eq (a b : ℚ) : ratMul a b = a * b := by
  rw [ratMul, Rat.mkRat_eq_div]
  conv_rhs => rw [← Rat.num_div_den a, ← Rat.num_div_den b]
  have ha : ((a.den : ℚ)) ≠ 0 := by exact_mod_cast a.den_nz
  have hb : ((b.den : ℚ)) ≠ 0 := by exact_mod_cast b.den_nz
  push_cast
  field_simp
  try ring

theorem ratSub_eq (a b : ℚ) : ratSub a b = a - b := by
  rw [ratSub, Rat.mkRat_eq_div]
  conv_rhs => rw [← Rat.num_div_den a, ← Rat.num_div_den b]
  have ha : ((a.den : ℚ)) ≠ 0 := by exact_mod_cast a.den_nz
  have hb : ((b.den : ℚ)) ≠ 0 := by exact_mod_cast b.den_nz
  push_cast
  field_simp
  try ring

theorem ratAdd_eq (a b : ℚ) : ratAdd a b = a + b := by
  rw [ratAdd, Rat.mkRat_eq_div]
  conv_rhs => rw [← Rat.num_div_den a, ← Rat.num_div_den b]
  have ha : ((a.den : ℚ)) ≠ 0 := by exact_mod_cast a.den_nz
  have hb : ((b.den : ℚ)) ≠ 0 := by exact_mod_cast b.den_nz
  push_cast
  field_simp
  try ring

theorem chunks20Go_congr {α : Type} :
    ∀ f₁ f₂ (l : List α), l.length ≤ f₁ → l.length ≤ f₂ →
      chunks20Go f₁ l = chunks20Go f₂ l := by
  intro f₁
  induction f₁ with
  | zero =>
    intro f₂ l h₁ _
    have : l = [] := List.eq_nil_of_length_eq_zero (Nat.le_zero.mp h₁)
    subst this
    cases f₂ <;> rfl
  | succ f ih =>
    intro f₂ l h₁ h₂
    cases l with
    | nil => cases f₂ <;> rfl
    | cons x xs =>
      cases f₂ with
      | zero => simp at h₂
      | succ g =>
        show ((x :: xs).take 20) :: chunks20Go f ((x :: xs).drop 20) =
          ((x :: xs).take 20) :: chunks20Go g ((x :: xs).drop 20)
        have hd : ((x :: xs).drop 20).length ≤ f := by
          simp only [List.length_drop, List.length_cons]
          simp only [List.length_cons] at h₁
          omega
        have hd2 : ((x :: xs).drop 20).length ≤ g := by
          simp only [List.length_drop, List.length_cons]
          simp only [List.length_cons] at h₂
          omega
        rw [ih g _ hd hd2]

theorem chunks20_of_ne_nil {α : Type} (l : List α) (h : l ≠ []) :
    chunks20 l = l.take 20 :: chunks20 (l.drop 20) := by
  cases l with
  | nil => exact absurd rfl h
  | cons x xs =>
    show ((x :: xs).take 20) :: chunks20Go xs.length ((x :: xs).drop 20) = _
    have hd : ((x :: xs).drop 20).length ≤ xs.length := by
      simp only [List.length_drop, List.length_cons]
      omega
    rw [chunks20Go_congr xs.length ((x :: xs).drop 20).length _ hd le_rfl]
    rfl

theorem isPrefixOf_eq {a b : List Char} : a.isPrefixOf b = true ↔ a <+: b :=
  List.isPrefixOf_iff_prefix

theorem avail_not_latency {s : String}
    (h : pyStartsWith s "network_availability_" = true) :
    pyStartsWith s "network_latency_" = false := by
  rw [pyStartsWith] at h ⊢
  by_contra hne
  rw [Bool.not_eq_false] at hne
  rcases List.prefix_or_prefix_of_prefix (isPrefixOf_eq.mp h) (isPrefixOf_eq.mp hne) with
    h' | h'
  · exact absurd h' (by decide)
  · exact absurd h' (by decide)

theorem chunks20_flatten_aux {α : Type} :
    ∀ (n : Nat) (l : List α), l.length ≤ n → (chunks20 l).flatten = l := by
  intro n
  induction n with
  | zero =>
    intro l h
    have : l = [] := List.eq_nil_of_length_eq_zero (Nat.le_zero.mp h)
    subst this
    rfl
  | succ n ih =>
    intro l h
    cases l with
    | nil => rfl
    | cons x xs =>
      rw [chunks20_of_ne_nil _ (by simp), List.flatten_cons,
        ih ((x :: xs).drop 20) (by simp only [List.length_drop, List.length_cons]; simp only [List.length_cons] at h; omega)]
      exact List.take_append_drop 20 (x :: xs)

theorem chunks20_flatten {α : Type} (l : List α) : (chunks20 l).flatten = l :=
  chunks20_flatten_aux l.length l le_rfl

theorem chunks20_mem_aux {α : Type} :
    ∀ (n : Nat) (l : List α), l.length ≤ n →
      ∀ c ∈ chunks20 l, c.length ≤ 20 ∧ c ≠ [] := by
  intro n
  induction n with
  | zero =>
    intro l h c hc
    have : l = [] := List.eq_nil_of_length_eq_zero (Nat.le_zero.mp h)
    subst this
    exact absurd hc (List.not_mem_nil c)
  | succ n ih =>
    intro l h c hc
    cases l with
    | nil => exact absurd hc (List.not_mem_nil c)
    | cons x xs =>
      rw [chunks20_of_ne_nil _ (by simp)] at hc
      rcases List.mem_cons.mp hc with rfl | hc
      · constructor
        · simp only [List.length_take]
          omega
        · simp [List.take_succ_cons]
      · exact ih ((x :: xs).drop 20)
          (by simp only [List.length_drop, List.length_cons]; simp only [List.length_cons] at h; omega) c hc

theorem chunks20_map_length_45 {α : Type} (l : List α) (h : l.length = 45) :
    (chunks20 l).map List.length = [20, 20, 5] := by
  have h1 : l ≠ [] := by
    intro e
    rw [e] at h
    simp at h
  rw [chunks20_of_ne_nil l h1]
  have hd1 : (l.drop 20).length = 25 := by simp [h]
  have h2 : l.drop 20 ≠ [] := by
    intro e
    rw [e] at hd1
    simp at hd1
  rw [chunks20_of_ne_nil _ h2]
  have hd2 : ((l.drop 20).drop 20).length = 5 := by
    simp only [List.length_drop]
    omega
  have h3 : (l.drop 20).drop 20 ≠ [] := by
    intro e
    rw [e] at hd2
    simp at hd2
  rw [chunks20_of_ne_nil _ h3]
  have hd3 : (((l.drop 20).drop 20).drop 20) = [] :=
    List.eq_nil_of_length_eq_zero (by simp only [List.length_drop]; omega)
  rw [hd3]
  have : chunks20 ([] : List α) = [] := rfl
  rw [this]
  simp [List.length_take, h, hd1, hd2]

/-- C4: `send_to_cloudwatch` splits the batch in order into consecutive
chunks of at most 20 samples (their concatenation is the batch), performs
one `put_metric_data` call per chunk mapping each sample to one data
point, never puts more than 20 data points in a call, and on a batch of
45 samples performs exactly 3 calls of sizes 20, 20 and 5. -/
theorem cloudwatch_chunking (metrics : List MetricData) :
    (send_to_cloudwatch true metrics).2 =
      (chunks20 metrics).map (fun c => c.map toDataPoint) ∧
    (chunks20 metrics).flatten = metrics ∧
    (send_to_cloudwatch true metrics).2.length = (chunks20 metrics).length ∧
    (∀ c ∈ (send_to_cloudwatch true metrics).2, c.length ≤ 20) ∧
    (metrics.length = 45 →
      (send_to_cloudwatch true metrics).2.map List.length = [20, 20, 5]) := by
  refine ⟨ rfl, chunks20_flatten metrics, by simp [send_to_cloudwatch], ?_, ?_⟩
  · intro c hc
    simp only [send_to_cloudwatch, if_neg (by decide : ¬ (true = false))] at hc
    rcases List.mem_map.mp hc with ⟨ chunk, hchunk, rfl⟩
    rw [List.length_map]
    exact (chunks20_mem_aux metrics.length metrics le_rfl chunk hchunk).1
  · intro h45
    have : (send_to_cloudwatch true metrics).2.map List.length =
        (chunks20 metrics).map List.length := by
      simp [send_to_cloudwatch, List.map_map, Function.comp_def]
    rw [this]
    exact chunks20_map_length_45 metrics h45

/-- Witness for C4 at a concrete batch of 45 samples. -/
theorem cloudwatch_chunking_witness :
    metrics45.length = 45 ∧
    (send_to_cloudwatch true metrics45).2.map List.length = [20, 20, 5] := by
  refine ⟨ by decide, ?_⟩
  exact (cloudwatch_chunking metrics45).2.2.2.2 (by decide)

/-- C10: with `alerts.enabled` false, `check_alerts` dispatches nothing
and leaves the suppression state untouched. -/
theorem alerts_disabled_frame (cfg : Config) (deliver : String → Bool)
    (metrics : List MetricData) (t : ℚ) (st : AlertState)
    (h : cfg.alerts.enabled = false) :
    check_alerts cfg deliver metrics t st = ([], st) := by
  simp [check_alerts, h]

/-- Witness for C10: a disabled configuration, a sample that would alert,
a non-empty suppression state. -/
theorem alerts_disabled_frame_witness :
    cfgDisabled.alerts.enabled = false ∧
    check_alerts cfgDisabled (fun _ => true)
      [⟨ "network_availability_router", 0, "Count", 0, []⟩] 0
      [("network_availability_router", 0)] =
      ([], [("network_availability_router", 0)]) :=
  ⟨ by decide,
    alerts_disabled_frame cfgDisabled (fun _ => true)
      [⟨ "network_availability_router", 0, "Count", 0, []⟩] 0
      [("network_availability_router", 0)] (by decide)⟩

/-- C3: a `network_availability_` sample of value 0 is always classified
critical — the latency thresholds have no influence — and the engine then
attempts dispatch through `_send_alert`, subject only to the cooldown
gate. -/
theorem availability_zero_critical (cfg : Config) (m : MetricData)
    (h1 : pyStartsWith m.name "network_availability_" = true)
    (h2 : m.value = 0) :
    classifyMetric cfg m =
      some ("critical", "CRITICAL: Target unreachable: " ++ m.name) ∧
    (∀ th : List (String × ℚ),
      classifyMetric { cfg with thresholds_latency := th } m =
        classifyMetric cfg m) ∧
    (∀ (deliver : String → Bool) (t cool : ℚ) (st : AlertState),
      checkAlertsStep cfg deliver t cool st m =
        ((_send_alert cfg.alerts.channels deliver
            ("CRITICAL: Target unreachable: " ++ m.name) "critical" m.name
            t cool st).notifs,
         (_send_alert cfg.alerts.channels deliver
            ("CRITICAL: Target unreachable: " ++ m.name) "critical" m.name
            t cool st).state)) := by
  have hlat : pyStartsWith m.name "network_latency_" = false :=
    avail_not_latency h1
  have hcl : classifyMetric cfg m =
      some ("critical", "CRITICAL: Target unreachable: " ++ m.name) := by
    simp [classifyMetric, hlat, h1, h2]
  refine ⟨ hcl, ?_, ?_⟩
  · intro th
    rw [hcl]
    simp [classifyMetric, hlat, h1, h2]
  · intro deliver t cool st
    rw [checkAlertsStep, hcl]

/-- Witness for C3: an availability-zero sample dispatches critical under
`cfgW`, whose thresholds then do not matter. -/
theorem availability_zero_critical_witness :
    pyStartsWith "network_availability_work_vpn" "network_availability_" = true ∧
    ((0 : ℚ) = 0) ∧
    classifyMetric cfgW ⟨ "network_availability_work_vpn", 0, "Count", 0, []⟩ =
      some ("critical", "CRITICAL: Target unreachable: network_availability_work_vpn") :=
  ⟨ by decide, rfl,
    (availability_zero_critical cfgW
      ⟨ "network_availability_work_vpn", 0, "Count", 0, []⟩
      (by decide) rfl).1⟩

/-- C5: classification of a `network_latency_` sample against the
per-class thresholds, defaults 1000 (critical) and 500 (warning):
critical when the value exceeds the critical threshold, else warning when
it exceeds the warning threshold, else no alert attempt at all. -/
theorem latency_threshold_classification (cfg : Config) (m : MetricData)
    (h : pyStartsWith m.name "network_latency_" = true) :
    (m.value > dictGetD cfg.thresholds_latency
        (_get_target_type cfg m.name ++ "_critical") 1000 →
      classifyMetric cfg m = some ("critical",
        "CRITICAL: High latency to " ++ m.name ++ ": " ++ fmt1 m.value ++ "ms")) ∧
    (m.value ≤ dictGetD cfg.thresholds_latency
        (_get_target_type cfg m.name ++ "_critical") 1000 →
      m.value > dictGetD cfg.thresholds_latency
        (_get_target_type cfg m.name ++ "_warning") 500 →
      classifyMetric cfg m = some ("warning",
        "WARNING: Elevated latency to " ++ m.name ++ ": " ++ fmt1 m.value ++ "ms")) ∧
    (m.value ≤ dictGetD cfg.thresholds_latency
        (_get_target_type cfg m.name ++ "_critical") 1000 →
      m.value ≤ dictGetD cfg.thresholds_latency
        (_get_target_type cfg m.name ++ "_warning") 500 →
      classifyMetric cfg m = none ∧
      ∀ (deliver : String → Bool) (t cool : ℚ) (st : AlertState),
        checkAlertsStep cfg deliver t cool st m = ([], st)) := by
  refine ⟨ ?_, ?_, ?_⟩
  · intro hv
    simp [classifyMetric, h, hv]
  · intro hc hw
    have hc' : ¬ (m.value > dictGetD cfg.thresholds_latency
        (_get_target_type cfg m.name ++ "_critical") 1000) := not_lt.mpr hc
    simp [classifyMetric, h, hc', hw]
  · intro hc hw
    have hc' : ¬ (m.value > dictGetD cfg.thresholds_latency
        (_get_target_type cfg m.name ++ "_critical") 1000) := not_lt.mpr hc
    have hw' : ¬ (m.value > dictGetD cfg.thresholds_latency
        (_get_target_type cfg m.name ++ "_warning") 500) := not_lt.mpr hw
    have hnone : classifyMetric cfg m = none := by
      simp [classifyMetric, h, hc', hw']
    exact ⟨ hnone, fun deliver t cool st => by rw [checkAlertsStep, hnone]⟩

/-- Witness for C5: under `cfgW` (lan thresholds 100 / 50) a latency of
75 ms to the internal router classifies as a warning. -/
theorem latency_threshold_classification_witness :
    pyStartsWith "network_latency_router" "network_latency_" = true ∧
    ((75 : ℚ) ≤ dictGetD cfgW.thresholds_latency
      (_get_target_type cfgW "network_latency_router" ++ "_critical") 1000) ∧
    ((75 : ℚ) > dictGetD cfgW.thresholds_latency
      (_get_target_type cfgW "network_latency_router" ++ "_warning") 500) ∧
    classifyMetric cfgW ⟨ "network_latency_router", 75, "Milliseconds", 0, []⟩ =
      some ("warning",
        "WARNING: Elevated latency to network_latency_router: 75.0ms") :=
  ⟨ by decide, by decide, by decide,
    (latency_threshold_classification cfgW
      ⟨ "network_latency_router", 75, "Milliseconds", 0, []⟩
      (by decide)).2.1 (by decide) (by decide)⟩

theorem containsSub_iff (hay needle : List Char) :
    containsSub hay needle = true ↔ needle <:+: hay := by
  induction hay with
  | nil =>
    simp only [containsSub, List.isEmpty_iff, List.infix_nil]
  | cons c t ih =>
    simp only [containsSub, Bool.or_eq_true, isPrefixOf_eq, ih,
      List.infix_cons_iff]

theorem pyIn_iff (sub s : String) :
    pyIn sub s = true ↔ sub.data <:+: s.data :=
  containsSub_iff s.data sub.data

/-- C7 counterexample: under `cfgSub`, the target `gateway` is a key of
the work-proxy group and not of the internal group, yet
`_get_target_type` classifies `network_latency_gateway` as `lan` (the
internal key `gate` matches as a substring), not as `work` as the claim
requires. -/
theorem target_type_counterexample :
    "gateway" ∈ dictKeys cfgSub.targets_work_proxy ∧
    "gateway" ∉ dictKeys cfgSub.targets_internal ∧
    _get_target_type cfgSub "network_latency_gateway" ≠ "work" ∧
    _get_target_type cfgSub "network_latency_gateway" = "lan" := by
  refine ⟨ by decide, by decide, by decide, by decide⟩

/-- C7 amended: `_get_target_type` classifies by substring containment of
a group key in the full metric name — `lan` exactly when some internal
key occurs inside the name, `work` exactly when none does and some
work-proxy key occurs, `internet` exactly otherwise. -/
theorem target_type_substring (cfg : Config) (name : String) :
    (_get_target_type cfg name = "lan" ↔
      ∃ k ∈ dictKeys cfg.targets_internal, k.data <:+: name.data) ∧
    (_get_target_type cfg name = "work" ↔
      (¬ ∃ k ∈ dictKeys cfg.targets_internal, k.data <:+: name.data) ∧
      ∃ k ∈ dictKeys cfg.targets_work_proxy, k.data <:+: name.data) ∧
    (_get_target_type cfg name = "internet" ↔
      (¬ ∃ k ∈ dictKeys cfg.targets_internal, k.data <:+: name.data) ∧
      ¬ ∃ k ∈ dictKeys cfg.targets_work_proxy, k.data <:+: name.data) := by
  have hi : (dictKeys cfg.targets_internal).any (fun t => pyIn t name) = true ↔
      ∃ k ∈ dictKeys cfg.targets_internal, k.data <:+: name.data := by
    simp only [List.any_eq_true, pyIn_iff]
  have hw : (dictKeys cfg.targets_work_proxy).any (fun t => pyIn t name) = true ↔
      ∃ k ∈ dictKeys cfg.targets_work_proxy, k.data <:+: name.data := by
    simp only [List.any_eq_true, pyIn_iff]
  by_cases h1 : (dictKeys cfg.targets_internal).any (fun t => pyIn t name) = true
  · have e : _get_target_type cfg name = "lan" := by
      simp [_get_target_type, h1]
    rw [e]
    simp only [hi] at h1
    refine ⟨ by simp [h1], ?_, ?_⟩
    · constructor
      · intro h
        exact absurd h (by decide)
      · intro ⟨ hn, _⟩
        exact absurd h1 hn
    · constructor
      · intro h
        exact absurd h (by decide)
      · intro ⟨ hn, _⟩
        exact absurd h1 hn
  · by_cases h2 : (dictKeys cfg.targets_work_proxy).any (fun t => pyIn t name) = true
    · have e : _get_target_type cfg name = "work" := by
        simp [_get_target_type, h1, h2]
      rw [e]
      rw [hi] at h1
      rw [hw] at h2
      refine ⟨ ?_, by simp [h1, h2], ?_⟩
      · constructor
        · intro h
          exact absurd h (by decide)
        · intro hn
          exact absurd hn h1
      · constructor
        · intro h
          exact absurd h (by decide)
        · intro ⟨ _, hn⟩
          exact absurd h2 hn
    · have e : _get_target_type cfg name = "internet" := by
        simp [_get_target_type, h1, h2]
      rw [e]
      rw [hi] at h1
      rw [hw] at h2
      refine ⟨ ?_, ?_, by simp [h1, h2]⟩
      · constructor
        · intro h
          exact absurd h (by decide)
        · intro hn
          exact absurd hn h1
      · constructor
        · intro h
          exact absurd h (by decide)
        · intro ⟨ _, hn⟩
          exact absurd hn h2

theorem renderLine_eq_amended (m : MetricData) :
    renderLine m = renderLineAmended m := by
  unfold renderLine renderLineAmended promName pyLower pyReplaceDash
  have hname : (m.name.data.map fun c => if c = '-' then '_' else c).map Char.toLower =
      m.name.data.map fun c => if c = '-' then '_' else c.toLower := by
    rw [List.map_map]
    apply List.map_congr_left
    intro c _
    by_cases hc : c = '-'
    · subst hc
      simp only [if_pos rfl, Function.comp_apply]
      decide
    · simp [Function.comp_apply, hc]
  rw [hname]

/-- C6 counterexample: on a sample named `foo.bar` the renderer leaves
the dot in place (`replace('-', '_')` folds only hyphens), while the
claim's normalisation — every non-alphanumeric separator folded to
underscore — demands `foo_bar`. -/
theorem render_fold_counterexample :
    export_prometheus_metrics [mDotted] = "foo.bar 1 0" ∧
    String.intercalate "\n" ([mDotted].map renderLineSpecFold) = "foo_bar 1 0" ∧
    export_prometheus_metrics [mDotted] ≠
      String.intercalate "\n" ([mDotted].map renderLineSpecFold) := by
  refine ⟨ by decide, by decide, by decide⟩

/-- C6 amended: `export_prometheus_metrics` is one line per sample, in
order, joined by newline, each line being the metric name with every
HYPHEN folded to underscore and lower-cased, a `key="value"` label block
exactly when the sample's labels are non-empty (in insertion order), a
space, the value, a space, and the timestamp in integer milliseconds;
the empty sequence renders to the empty document. -/
theorem render_amended :
    export_prometheus_metrics [] = "" ∧
    ∀ metrics : List MetricData,
      export_prometheus_metrics metrics =
        String.intercalate "\n" (metrics.map renderLineAmended) := by
  refine ⟨ rfl, ?_⟩
  intro metrics
  unfold export_prometheus_metrics
  congr 1
  apply List.map_congr_left
  intro m _
  exact renderLine_eq_amended m

theorem dictGet?_dictSet_self {α : Type} (d : List (String × α)) (k : String) (v : α) :
    dictGet? (dictSet d k v) k = some v := by
  induction d with
  | nil => simp [dictSet, dictGet?]
  | cons p rest ih =>
    obtain ⟨ pk, pv⟩ := p
    by_cases h : pk = k
    · subst h
      simp [dictSet, dictGet?]
    · simp [dictSet, dictGet?, h, ih]

theorem send_alert_suppressed (ch : Channels) (deliver : String → Bool)
    (message severity key : String) (t cool T : ℚ) (st : AlertState)
    (hT : dictGet? st key = some T) (hlt : t - T < cool) :
    _send_alert ch deliver message severity key t cool st =
      ⟨ false, [], false, st⟩ := by
  simp only [_send_alert, hT, ratSub_eq]
  rw [if_pos hlt]

theorem send_alert_pass_of_some (ch : Channels) (deliver : String → Bool)
    (message severity key : String) (t cool T : ℚ) (st : AlertState)
    (hT : dictGet? st key = some T) (hge : ¬ (t - T < cool)) :
    _send_alert ch deliver message severity key t cool st =
      ⟨ true, channelAttempts ch deliver message severity key,
        ch.email || ch.sms || ch.slack || ch.webhook,
        dictSet st key t⟩ := by
  simp only [_send_alert, hT, ratSub_eq]
  rw [if_neg hge]

theorem send_alert_state_of_pass (ch : Channels) (deliver : String → Bool)
    (message severity key : String) (t cool : ℚ) (st : AlertState)
    (h : (_send_alert ch deliver message severity key t cool st).gatePassed = true) :
    dictGet? (_send_alert ch deliver message severity key t cool st).state key =
      some t := by
  cases hdg : dictGet? st key with
  | none =>
    simp only [_send_alert, hdg]
    exact dictGet?_dictSet_self st key t
  | some last =>
    simp only [_send_alert, hdg] at h ⊢
    by_cases hc : ratSub t last < cool
    · rw [if_pos hc] at h
      simp at h
    · rw [if_neg hc]
      exact dictGet?_dictSet_self st key t

theorem send_alert_deliver_indep (ch : Channels) (d₁ d₂ : String → Bool)
    (message severity key : String) (t cool : ℚ) (st : AlertState) :
    (_send_alert ch d₁ message severity key t cool st).state =
      (_send_alert ch d₂ message severity key t cool st).state ∧
    (_send_alert ch d₁ message severity key t cool st).gatePassed =
      (_send_alert ch d₂ message severity key t cool st).gatePassed ∧
    (_send_alert ch d₁ message severity key t cool st).alertSent =
      (_send_alert ch d₂ message severity key t cool st).alertSent := by
  unfold _send_alert
  cases hdg : dictGet? st key with
  | none => exact ⟨ rfl, rfl, rfl⟩
  | some last =>
    by_cases hc : ratSub t last < cool
    · simp [hc]
    · simp [hc]

theorem runAlerts_suppressed (ch : Channels) (deliver : String → Bool)
    (message severity key : String) (cool T : ℚ) (st : AlertState)
    (hT : dictGet? st key = some T) :
    ∀ ts : List ℚ, (∀ t ∈ ts, t - T < cool) →
      (∀ r ∈ (runAlerts ch deliver message severity key cool ts st).1,
        r.gatePassed = false ∧ r.notifs = []) ∧
      (runAlerts ch deliver message severity key cool ts st).2 = st := by
  intro ts
  induction ts with
  | nil =>
    intro _
    exact ⟨ fun r hr => absurd hr (List.not_mem_nil r), rfl⟩
  | cons t rest ih =>
    intro hts
    have hsup := send_alert_suppressed ch deliver message severity key t cool T st
      hT (hts t (List.mem_cons_self t rest))
    have hrest := ih fun u hu => hts u (List.mem_cons_of_mem t hu)
    constructor
    · intro r hr
      show r.gatePassed = false ∧ r.notifs = []
      have : (runAlerts ch deliver message severity key cool (t :: rest) st).1 =
          ⟨ false, [], false, st⟩ ::
            (runAlerts ch deliver message severity key cool rest st).1 := by
        show (_send_alert ch deliver message severity key t cool st ::
          (runAlerts ch deliver message severity key cool rest
            (_send_alert ch deliver message severity key t cool st).state).1) = _
        rw [hsup]
      rw [this] at hr
      rcases List.mem_cons.mp hr with rfl | hr
      · exact ⟨ rfl, rfl⟩
      · exact hrest.1 r hr
    · show (runAlerts ch deliver message severity key cool rest
        (_send_alert ch deliver message severity key t cool st).state).2 = st
      rw [hsup]
      exact hrest.2

/-- C1: once the suppression state records an alert for a key at
evaluation time `T`, every later evaluation of that key at a time `t`
with `t - T < cooldown` is suppressed — the gate fails, no delivery is
attempted and the state is untouched — and the first classified event at
a time `t'` with `t' - T ≥ cooldown` passes the gate again and moves the
suppression timestamp to `t'`.  A dispatch at `T` from any prior state
records exactly `T`, and both the gate and the recorded state are
independent of the delivery outcomes, so the bound holds even when every
channel delivery fails. -/
theorem cooldown_at_most_once (ch : Channels) (deliver : String → Bool)
    (message severity key : String) (cool T : ℚ) (st : AlertState)
    (ts : List ℚ) (t' : ℚ)
    (hT : dictGet? st key = some T)
    (hts : ∀ t ∈ ts, t - T < cool)
    (ht' : t' - T ≥ cool) :
    (∀ r ∈ (runAlerts ch deliver message severity key cool ts st).1,
      r.gatePassed = false ∧ r.notifs = []) ∧
    (runAlerts ch deliver message severity key cool ts st).2 = st ∧
    (_send_alert ch deliver message severity key t' cool st).gatePassed = true ∧
    dictGet? (_send_alert ch deliver message severity key t' cool st).state key =
      some t' ∧
    (∀ st₀ : AlertState,
      (_send_alert ch deliver message severity key T cool st₀).gatePassed = true →
      dictGet? (_send_alert ch deliver message severity key T cool st₀).state key =
        some T) ∧
    (∀ d₁ d₂ : String → Bool,
      (_send_alert ch d₁ message severity key t' cool st).state =
        (_send_alert ch d₂ message severity key t' cool st).state ∧
      (_send_alert ch d₁ message severity key t' cool st).gatePassed =
        (_send_alert ch d₂ message severity key t' cool st).gatePassed) := by
  have hrun := runAlerts_suppressed ch deliver message severity key cool T st hT ts hts
  have hpass := send_alert_pass_of_some ch deliver message severity key t' cool T st
    hT (not_lt.mpr ht')
  refine ⟨ hrun.1, hrun.2, ?_, ?_, ?_, ?_⟩
  · rw [hpass]
  · rw [hpass]
    exact dictGet?_dictSet_self st key t'
  · intro st₀ hg
    exact send_alert_state_of_pass ch deliver message severity key T cool st₀ hg
  · intro d₁ d₂
    exact ⟨ (send_alert_deliver_indep ch d₁ d₂ message severity key t' cool st).1,
      (send_alert_deliver_indep ch d₁ d₂ message severity key t' cool st).2.1⟩

/-- Witness for C1, on the spec's cooldown example: cooldown 300 s, a
dispatch recorded at `t = 0`, a suppressed evaluation at `t = 120`, a
re-dispatch at `t = 360`, with every channel delivery failing. -/
theorem cooldown_at_most_once_witness :
    dictGet? [("network_latency_router", (0 : ℚ))] "network_latency_router" = some 0 ∧
    (∀ t ∈ ([120] : List ℚ), t - 0 < 300) ∧
    ((360 : ℚ) - 0 ≥ 300) ∧
    ((∀ r ∈ (runAlerts ⟨ true, false, false, false⟩ (fun _ => false) "m" "critical"
        "network_latency_router" 300 [120]
        [("network_latency_router", 0)]).1, r.gatePassed = false ∧ r.notifs = []) ∧
      (runAlerts ⟨ true, false, false, false⟩ (fun _ => false) "m" "critical"
        "network_latency_router" 300 [120] [("network_latency_router", 0)]).2 =
        [("network_latency_router", 0)] ∧
      (_send_alert ⟨ true, false, false, false⟩ (fun _ => false) "m" "critical"
        "network_latency_router" 360 300
        [("network_latency_router", 0)]).gatePassed = true ∧
      dictGet? (_send_alert ⟨ true, false, false, false⟩ (fun _ => false) "m"
        "critical" "network_latency_router" 360 300
        [("network_latency_router", 0)]).state "network_latency_router" =
        some 360 ∧
      (∀ st₀ : AlertState,
        (_send_alert ⟨ true, false, false, false⟩ (fun _ => false) "m" "critical"
          "network_latency_router" 0 300 st₀).gatePassed = true →
        dictGet? (_send_alert ⟨ true, false, false, false⟩ (fun _ => false) "m"
          "critical" "network_latency_router" 0 300 st₀).state
          "network_latency_router" = some 0) ∧
      (∀ d₁ d₂ : String → Bool,
        (_send_alert ⟨ true, false, false, false⟩ d₁ "m" "critical"
          "network_latency_router" 360 300 [("network_latency_router", 0)]).state =
          (_send_alert ⟨ true, false, false, false⟩ d₂ "m" "critical"
            "network_latency_router" 360 300
            [("network_latency_router", 0)]).state ∧
        (_send_alert ⟨ true, false, false, false⟩ d₁ "m" "critical"
          "network_latency_router" 360 300
          [("network_latency_router", 0)]).gatePassed =
          (_send_alert ⟨ true, false, false, false⟩ d₂ "m" "critical"
            "network_latency_router" 360 300
            [("network_latency_router", 0)]).gatePassed)) :=
  ⟨ by decide,
    by simp only [List.mem_singleton, forall_eq, sub_zero]; decide,
    by simp only [ge_iff_le, sub_zero]; decide,
    cooldown_at_most_once ⟨ true, false, false, false⟩ (fun _ => false) "m"
      "critical" "network_latency_router" 300 0 [("network_latency_router", 0)]
      [120] 360 (by decide)
      (by simp only [List.mem_singleton, forall_eq, sub_zero]; decide)
      (by simp only [ge_iff_le, sub_zero]; decide)⟩

theorem send_alert_pass_of_none (ch : Channels) (deliver : String → Bool)
    (message severity key : String) (t cool : ℚ) (st : AlertState)
    (hN : dictGet? st key = none) :
    _send_alert ch deliver message severity key t cool st =
      ⟨ true, channelAttempts ch deliver message severity key,
        ch.email || ch.sms || ch.slack || ch.webhook,
        dictSet st key t⟩ := by
  simp only [_send_alert, hN]

/-- C9: when the cooldown gate passes with zero channels enabled, the
suppression timestamp is still set to the evaluation time (`_send_alert`
updates it before consulting the channels), no delivery is attempted and
the source's return value is `False`; a later classified event for the
same key within the cooldown window is then suppressed although nothing
was ever delivered. -/
theorem suppression_without_channels (deliver : String → Bool)
    (message severity key : String) (t cool : ℚ) (st : AlertState)
    (hg : (_send_alert ⟨ false, false, false, false⟩ deliver message severity key
      t cool st).gatePassed = true) :
    (_send_alert ⟨ false, false, false, false⟩ deliver message severity key
      t cool st).alertSent = false ∧
    (_send_alert ⟨ false, false, false, false⟩ deliver message severity key
      t cool st).notifs = [] ∧
    dictGet? (_send_alert ⟨ false, false, false, false⟩ deliver message severity key
      t cool st).state key = some t ∧
    (∀ (ch' : Channels) (deliver' : String → Bool) (m' s' : String) (t' : ℚ),
      t' - t < cool →
      _send_alert ch' deliver' m' s' key t' cool
        (_send_alert ⟨ false, false, false, false⟩ deliver message severity key
          t cool st).state =
        ⟨ false, [], false,
          (_send_alert ⟨ false, false, false, false⟩ deliver message severity key
            t cool st).state⟩) := by
  have hpass : _send_alert ⟨ false, false, false, false⟩ deliver message severity key
      t cool st =
      ⟨ true, channelAttempts ⟨ false, false, false, false⟩ deliver message severity key,
        false, dictSet st key t⟩ := by
    cases hdg : dictGet? st key with
    | none =>
      exact send_alert_pass_of_none _ deliver message severity key t cool st hdg
    | some last =>
      by_cases hc : ratSub t last < cool
      · have := send_alert_suppressed ⟨ false, false, false, false⟩ deliver message
          severity key t cool last st hdg (by rw [← ratSub_eq]; exact hc)
        rw [this] at hg
        simp at hg
      · exact send_alert_pass_of_some _ deliver message severity key t cool last st
          hdg (by rw [← ratSub_eq]; exact hc)
  have hatt : channelAttempts ⟨ false, false, false, false⟩ deliver message severity
      key = [] := rfl
  have hget : dictGet? (dictSet st key t) key = some t :=
    dictGet?_dictSet_self st key t
  refine ⟨ by rw [hpass], by rw [hpass]; exact hatt, by rw [hpass]; exact hget, ?_⟩
  intro ch' deliver' m' s' t' hlt
  rw [hpass]
  exact send_alert_suppressed ch' deliver' m' s' key t' cool t (dictSet st key t)
    hget hlt

/-- Witness for C9: an empty prior state, a gate that passes at `t = 0`
with every channel disabled, and a suppressed follow-up window. -/
theorem suppression_without_channels_witness :
    (_send_alert ⟨ false, false, false, false⟩ (fun _ => true) "m" "critical"
      "k" 0 300 []).gatePassed = true ∧
    ((_send_alert ⟨ false, false, false, false⟩ (fun _ => true) "m" "critical"
        "k" 0 300 []).alertSent = false ∧
      (_send_alert ⟨ false, false, false, false⟩ (fun _ => true) "m" "critical"
        "k" 0 300 []).notifs = [] ∧
      dictGet? (_send_alert ⟨ false, false, false, false⟩ (fun _ => true) "m"
        "critical" "k" 0 300 []).state "k" = some 0 ∧
      (∀ (ch' : Channels) (deliver' : String → Bool) (m' s' : String) (t' : ℚ),
        t' - 0 < 300 →
        _send_alert ch' deliver' m' s' "k" t' 300
          (_send_alert ⟨ false, false, false, false⟩ (fun _ => true) "m"
            "critical" "k" 0 300 []).state =
          ⟨ false, [], false,
            (_send_alert ⟨ false, false, false, false⟩ (fun _ => true) "m"
              "critical" "k" 0 300 []).state⟩)) :=
  ⟨ by decide,
    suppression_without_channels (fun _ => true) "m" "critical" "k" 0 300 []
      (by decide)⟩

theorem str_append_left_cancel {s a b : String} (h : s ++ a = s ++ b) : a = b := by
  apply String.ext
  have hd := congrArg String.data h
  rw [String.data_append, String.data_append] at hd
  exact List.append_cancel_left hd

theorem append_ne_append_of_take (p₁ p₂ x y : String) (n : Nat)
    (h₁ : n ≤ p₁.data.length) (h₂ : n ≤ p₂.data.length)
    (hne : p₁.data.take n ≠ p₂.data.take n) : p₁ ++ x ≠ p₂ ++ y := by
  intro h
  have hd := congrArg String.data h
  rw [String.data_append, String.data_append] at hd
  have ht := congrArg (List.take n) hd
  rw [List.take_append_of_le_length h₁, List.take_append_of_le_length h₂] at ht
  exact hne ht

theorem str_ne_append_of_take (s p y : String) (n : Nat)
    (h₂ : n ≤ p.data.length)
    (hne : s.data.take n ≠ p.data.take n) : s ≠ p ++ y := by
  intro h
  have hd := congrArg String.data h
  rw [String.data_append] at hd
  have ht := congrArg (List.take n) hd
  rw [List.take_append_of_le_length h₂] at ht
  exact hne ht

theorem lat_ne_avail (x y : String) :
    "network_latency_" ++ x ≠ "network_availability_" ++ y :=
  append_ne_append_of_take _ _ x y 9 (by decide) (by decide) (by decide)

theorem dns_ne_avail (y : String) :
    "dns_lookup_time" ≠ "network_availability_" ++ y :=
  str_ne_append_of_take _ _ y 1 (by decide) (by decide)

theorem dns_ne_lat (y : String) :
    "dns_lookup_time" ≠ "network_latency_" ++ y :=
  str_ne_append_of_take _ _ y 1 (by decide) (by decide)

theorem sys_ne_avail (x y : String) :
    "system_" ++ x ≠ "network_availability_" ++ y :=
  append_ne_append_of_take _ _ x y 1 (by decide) (by decide) (by decide)

theorem sys_ne_lat (x y : String) :
    "system_" ++ x ≠ "network_latency_" ++ y :=
  append_ne_append_of_take _ _ x y 1 (by decide) (by decide) (by decide)

theorem mem_dictKeys_dictSet {α : Type} (d : List (String × α)) (k : String)
    (v : α) (x : String) :
    x ∈ dictKeys (dictSet d k v) ↔ x ∈ dictKeys d ∨ x = k := by
  induction d with
  | nil => simp [dictSet, dictKeys]
  | cons p rest ih =>
    obtain ⟨ pk, pv⟩ := p
    simp only [dictKeys] at ih ⊢
    by_cases h : pk = k
    · subst h
      simp [dictSet, List.mem_cons]
      tauto
    · simp [dictSet, h, List.mem_cons, ih]
      tauto

theorem nodup_dictKeys_dictSet {α : Type} (d : List (String × α)) (k : String)
    (v : α) (h : (dictKeys d).Nodup) : (dictKeys (dictSet d k v)).Nodup := by
  induction d with
  | nil => simp [dictSet, dictKeys]
  | cons p rest ih =>
    obtain ⟨ pk, pv⟩ := p
    rw [dictKeys, List.map_cons, List.nodup_cons] at h
    by_cases hk : pk = k
    · subst hk
      rw [dictSet, if_pos rfl, dictKeys, List.map_cons, List.nodup_cons]
      exact h
    · rw [dictSet, if_neg hk, dictKeys, List.map_cons, List.nodup_cons]
      constructor
      · intro hmem
        rw [show (List.map Prod.fst (dictSet rest k v)) = dictKeys (dictSet rest k v)
            from rfl, mem_dictKeys_dictSet] at hmem
        rcases hmem with hmem | hmem
        · exact h.1 hmem
        · exact hk hmem
      · exact ih h.2

theorem nodup_dictKeys_dictUpdate {α : Type} (e : List (String × α)) :
    ∀ d : List (String × α), (dictKeys d).Nodup →
      (dictKeys (dictUpdate d e)).Nodup := by
  induction e with
  | nil => intro d h; exact h
  | cons p rest ih =>
    intro d h
    exact ih (dictSet d p.1 p.2) (nodup_dictKeys_dictSet d p.1 p.2 h)

theorem nodup_keys_allTargets (cfg : Config) :
    (dictKeys (allTargets cfg)).Nodup :=
  nodup_dictKeys_dictUpdate _ _
    (nodup_dictKeys_dictUpdate _ _
      (nodup_dictKeys_dictUpdate _ _ (by simp [dictKeys])))

theorem assoc_value_unique {α : Type} (d : List (String × α))
    (h : (dictKeys d).Nodup) {k : String} {a b : α}
    (ha : (k, a) ∈ d) (hb : (k, b) ∈ d) : a = b := by
  induction d with
  | nil => cases ha
  | cons p rest ih =>
    rw [dictKeys, List.map_cons, List.nodup_cons] at h
    rcases List.mem_cons.mp ha with he | ha'
    · rcases List.mem_cons.mp hb with he' | hb'
      · rw [← he] at he'
        exact (Prod.mk.injEq _ _ _ _ |>.mp he').2.symm ▸ rfl
      · exfalso
        apply h.1
        rw [← he]
        exact List.mem_map.mpr ⟨ (k, b), hb', rfl⟩
    · rcases List.mem_cons.mp hb with he' | hb'
      · exfalso
        apply h.1
        rw [← he']
        exact List.mem_map.mpr ⟨ (k, a), ha', rfl⟩
      · exact ih h.2 ha' hb'

theorem countP_flatMap {α β : Type} (l : List α) (f : α → List β) (p : β → Bool) :
    (l.flatMap f).countP p = (l.map fun a => (f a).countP p).sum := by
  induction l with
  | nil => simp
  | cons x xs ih => simp [List.flatMap_cons, List.countP_append, ih]

theorem sum_ite_key_zero {α : Type} (d : List (String × α)) (n : String)
    (h : n ∉ dictKeys d) :
    (d.map fun p => if p.1 = n then 1 else 0).sum = 0 := by
  induction d with
  | nil => rfl
  | cons p rest ih =>
    rw [dictKeys, List.map_cons, List.mem_cons] at h
    push_neg at h
    rw [List.map_cons, List.sum_cons, if_neg (fun e => h.1 e.symm),
      ih (by rw [dictKeys]; exact h.2)]

theorem sum_ite_key_one {α : Type} (d : List (String × α)) (n : String)
    (h : (dictKeys d).Nodup) (hm : n ∈ dictKeys d) :
    (d.map fun p => if p.1 = n then 1 else 0).sum = 1 := by
  induction d with
  | nil => cases hm
  | cons p rest ih =>
    rw [dictKeys, List.map_cons, List.nodup_cons] at h
    rw [dictKeys, List.map_cons, List.mem_cons] at hm
    rw [List.map_cons, List.sum_cons]
    by_cases he : p.1 = n
    · rw [if_pos he, sum_ite_key_zero rest n (by rw [← he]; exact h.1)]
    · rcases hm with hm | hm
      · exact absurd hm.symm he
      · rw [if_neg he, ih h.2 hm]

theorem avail_name_inj (x y : String) :
    ("network_availability_" ++ x = "network_availability_" ++ y) ↔ x = y :=
  ⟨ fun h => str_append_left_cancel h, fun h => by rw [h]⟩

theorem avail_name_count (ping : String → Option ℚ) (ts : ℚ)
    (p : String × String) (n : String) :
    (targetSamples ping ts p).countP
      (fun m => decide (m.name = "network_availability_" ++ n)) =
      if p.1 = n then 1 else 0 := by
  obtain ⟨ n', a'⟩ := p
  have hlat := lat_ne_avail n' n
  cases hp : ping a' with
  | none =>
    simp only [targetSamples, hp, List.countP_cons, List.countP_nil]
    by_cases hn : n' = n
    · subst hn
      simp
    · simp [avail_name_inj, hn]
  | some v =>
    simp only [targetSamples, hp, List.countP_cons, List.countP_nil]
    by_cases hn : n' = n
    · subst hn
      simp [hlat]
    · simp [avail_name_inj, hn, hlat]

theorem mem_targetSamples (ping : String → Option ℚ) (ts : ℚ)
    (p : String × String) (m : MetricData) (hm : m ∈ targetSamples ping ts p) :
    (m.name = "network_latency_" ++ p.1 ∧ (ping p.2).isSome = true) ∨
      m.name = "network_availability_" ++ p.1 := by
  obtain ⟨ n', a'⟩ := p
  cases hp : ping a' with
  | none =>
    simp only [targetSamples, hp, List.mem_singleton] at hm
    subst hm
    right
    rfl
  | some v =>
    simp only [targetSamples, hp, List.mem_cons, List.mem_singleton] at hm
    rcases hm with rfl | hm
    · left
      exact ⟨ rfl, by simp [hp]⟩
    · rcases hm with rfl | hm
      · right
        rfl
      · cases hm

theorem mem_dnsSamples_name (dns : String → Option ℚ) (ts : ℚ) (m : MetricData)
    (hm : m ∈ dnsSamples dns ts) : m.name = "dns_lookup_time" := by
  rcases List.mem_filterMap.mp hm with ⟨ d, _, he⟩
  cases hdd : dns d with
  | none =>
    rw [hdd] at he
    simp at he
  | some v =>
    rw [hdd] at he
    simp only [Option.map] at he
    cases he
    rfl

theorem mem_sysSamples_name (sysM : List (String × ℚ)) (ts : ℚ) (m : MetricData)
    (hm : m ∈ sysSamples sysM ts) : ∃ k, m.name = "system_" ++ k := by
  rcases List.mem_map.mp hm with ⟨ p, _, rfl⟩
  exact ⟨ p.1, rfl⟩

/-- C2: per configured target (the three groups merged into one
dictionary keyed by name), a successful probe contributes both the
`network_latency_<name>` sample carrying the measured value and a
`network_availability_<name>` sample of value 1; a failed probe
contributes exactly one `network_availability_<name>` sample, of
value 0, and no latency sample for that target.  The statement holds for
every probe function, so one target's failure never disturbs another
target's samples; `collect_network_metrics` is total (the source catches
every probe exception inside the probe helpers). -/
theorem collect_per_target (cfg : Config) (ping dns : String → Option ℚ)
    (sysM : List (String × ℚ)) (ts : ℚ) (n a : String)
    (hmem : (n, a) ∈ allTargets cfg) :
    (∀ v : ℚ, ping a = some v →
      ({ name := "network_latency_" ++ n, value := v, unit := "Milliseconds",
         timestamp := ts, dimensions := [("target", a), ("target_name", n)] } :
         MetricData) ∈ collect_network_metrics cfg ping dns sysM ts ∧
      ({ name := "network_availability_" ++ n, value := 1, unit := "Count",
         timestamp := ts, dimensions := [("target", a), ("target_name", n)] } :
         MetricData) ∈ collect_network_metrics cfg ping dns sysM ts) ∧
    (ping a = none →
      ({ name := "network_availability_" ++ n, value := 0, unit := "Count",
         timestamp := ts, dimensions := [("target", a), ("target_name", n)] } :
         MetricData) ∈ collect_network_metrics cfg ping dns sysM ts ∧
      (collect_network_metrics cfg ping dns sysM ts).countP
        (fun m => decide (m.name = "network_availability_" ++ n)) = 1 ∧
      ∀ m ∈ collect_network_metrics cfg ping dns sysM ts,
        m.name ≠ "network_latency_" ++ n) := by
  have hnodup := nodup_keys_allTargets cfg
  have hkey : n ∈ dictKeys (allTargets cfg) :=
    List.mem_map.mpr ⟨ (n, a), hmem, rfl⟩
  constructor
  · intro v hv
    constructor
    · simp only [collect_network_metrics]
      apply List.mem_append_left
      apply List.mem_append_left
      exact List.mem_flatMap.mpr ⟨ (n, a), hmem, by simp [targetSamples, hv]⟩
    · simp only [collect_network_metrics]
      apply List.mem_append_left
      apply List.mem_append_left
      exact List.mem_flatMap.mpr ⟨ (n, a), hmem, by simp [targetSamples, hv]⟩
  · intro hnone
    refine ⟨ ?_, ?_, ?_⟩
    · simp only [collect_network_metrics]
      apply List.mem_append_left
      apply List.mem_append_left
      exact List.mem_flatMap.mpr ⟨ (n, a), hmem, by simp [targetSamples, hnone]⟩
    · simp only [collect_network_metrics, List.countP_append, countP_flatMap]
      have h1 : (allTargets cfg).map
          (fun p => (targetSamples ping ts p).countP
            (fun m => decide (m.name = "network_availability_" ++ n))) =
          (allTargets cfg).map (fun p => if p.1 = n then 1 else 0) :=
        List.map_congr_left fun p _ => avail_name_count ping ts p n
      rw [h1, sum_ite_key_one _ _ hnodup hkey]
      have h2 : (dnsSamples dns ts).countP
          (fun m => decide (m.name = "network_availability_" ++ n)) = 0 :=
        List.countP_eq_zero.mpr fun m hm => by
          simp [mem_dnsSamples_name dns ts m hm, dns_ne_avail n]
      have h3 : (sysSamples sysM ts).countP
          (fun m => decide (m.name = "network_availability_" ++ n)) = 0 :=
        List.countP_eq_zero.mpr fun m hm => by
          obtain ⟨ k, hk⟩ := mem_sysSamples_name sysM ts m hm
          simp [hk, sys_ne_avail k n]
      rw [h2, h3]
    · intro m hm
      simp only [collect_network_metrics] at hm
      rcases List.mem_append.mp hm with hm' | hmC
      · rcases List.mem_append.mp hm' with hmA | hmB
        · rcases List.mem_flatMap.mp hmA with ⟨ p, hp, hmp⟩
          obtain ⟨ pn, pa⟩ := p
          rcases mem_targetSamples ping ts (pn, pa) m hmp with ⟨ hname, hsome⟩ | hname
          · rw [hname]
            intro he
            have hn' : pn = n := str_append_left_cancel he
            subst hn'
            have hpa : pa = a := assoc_value_unique (allTargets cfg) hnodup hp hmem
            subst hpa
            rw [hnone] at hsome
            simp at hsome
          · rw [hname]
            exact Ne.symm (lat_ne_avail n pn)
        · rw [mem_dnsSamples_name dns ts m hmB]
          exact dns_ne_lat n
      · obtain ⟨ k, hk⟩ := mem_sysSamples_name sysM ts m hmC
        rw [hk]
        exact sys_ne_lat k n

/-- Witness for C2 under `cfgW`: the router probe succeeds at 12 ms, the
internet and work-proxy probes fail; the failing internet target keeps
exactly one availability-0 sample and no latency sample. -/
theorem collect_per_target_witness :
    (("cloudflare", "1.1.1.1") ∈ allTargets cfgW) ∧
    ((fun adr => if adr = "192.168.1.1" then some (12 : ℚ) else none) "1.1.1.1" =
      none) ∧
    (({ name := "network_availability_" ++ "cloudflare", value := 0,
        unit := "Count", timestamp := 0,
        dimensions := [("target", "1.1.1.1"), ("target_name", "cloudflare")] } :
        MetricData) ∈ collect_network_metrics cfgW
        (fun adr => if adr = "192.168.1.1" then some (12 : ℚ) else none)
        (fun _ => none) [] 0 ∧
      (collect_network_metrics cfgW
        (fun adr => if adr = "192.168.1.1" then some (12 : ℚ) else none)
        (fun _ => none) [] 0).countP
        (fun m => decide (m.name = "network_availability_" ++ "cloudflare")) = 1 ∧
      ∀ m ∈ collect_network_metrics cfgW
        (fun adr => if adr = "192.168.1.1" then some (12 : ℚ) else none)
        (fun _ => none) [] 0,
        m.name ≠ "network_latency_" ++ "cloudflare") :=
  ⟨ by decide, by decide,
    (collect_per_target cfgW
      (fun adr => if adr = "192.168.1.1" then some (12 : ℚ) else none)
      (fun _ => none) [] 0 "cloudflare" "1.1.1.1" (by decide)).2 (by decide)⟩

end NetMon
